import Mathlib

/-! Verification of the A* search engine of `src/AStar.py` (Crossoufire/A-star).

This file gives a shallow embedding of the Python source and settles the
frozen claims about it.

Modelling choices, mirroring the source faithfully:

* Python objects are modelled by references (`Ref`): the module-level
  `start_node` and `end_node` objects (created in `__main__`) are distinct
  objects from the grid's own nodes, even when their coordinates coincide;
  every grid slot `grid[x][y]` is its own object.  A heap `Ref → Node`
  carries the current field values of every object.
* `Node` has no `__eq__`, so Python's `in` on lists compares by object
  identity; we model list membership as membership of the `Ref`.
* `Node.__hash__` hashes the tuple `(x, y, h_cost, h_cost, F_cost,
  parent_node)` (the source really lists `h_cost` twice and never `g_cost`
  directly).  A Python `set` finds an element only when its current hash
  equals its hash at insertion time; we model the hash injectively by the
  tuple itself, so `closedSet` stores `(ref, tuple-at-insertion)` pairs and
  membership requires the stored tuple to equal the current one.
* `list.sort()` is Python's stable Timsort driven by `__lt__`.  `__lt__`
  here is the lexicographic strict order on `(F_cost, g_cost)`, a strict
  weak order, under which every stable sort computes the same permutation;
  we use the stable `List.insertionSort` with the reflexive relation
  `a ≼ b ↔ ¬ (b < a)`, which inserts an element before exactly the
  strictly greater ones, as Timsort does.
* Matplotlib rendering (`plot_path`, colors, event plumbing) only draws and
  never changes engine state; it is omitted.
-/

namespace AStarSpec

/-- Object references: the module-level `start_node` object, the
module-level `end_node` object, and the grid's own node objects (one per
coordinate pair).  `A_Star.__init__` in `__main__` receives exactly the two
module-level objects, so these are all the node objects the engine touches. -/
inductive Ref where
  | startR : Ref
  | endR : Ref
  | gridR : Int → Int → Ref
  deriving DecidableEq, Repr

/-- Field values of a `Node` object (class `Node`, `src/AStar.py` lines 7-37). -/
structure Node where
  x : Int
  y : Int
  parent_node : Option Ref
  g_cost : Int
  h_cost : Int
  deriving DecidableEq, Repr

/-- Embeds `Node.__init__`: coordinates as given, `parent_node = None`,
`g_cost = h_cost = 0`. -/
def mkNode (x y : Int) : Node :=
  { x := x, y := y, parent_node := none, g_cost := 0, h_cost := 0 }

/-- The derived property `Node.F_cost = g_cost + h_cost`. -/
def Node.F_cost (n : Node) : Int := n.g_cost + n.h_cost

/-- The tuple hashed by `Node.__hash__`:
`(x, y, h_cost, h_cost, F_cost, parent_node)`.  We model the hash function
as injective, i.e. by the tuple itself. -/
def nodeHash (n : Node) : Int × Int × Int × Int × Int × Option Ref :=
  (n.x, n.y, n.h_cost, n.h_cost, n.F_cost, n.parent_node)

/-- Class `GridNodes`: the grid dimensions.  The node objects it allocates
live in the heap of the `A_Star` state (one object per coordinate). -/
structure GridNodes where
  width : Int
  height : Int
  deriving DecidableEq, Repr

/-- Embeds `GridNodes.get_node` (lines 52-56): returns `None` when
`x + 1 > width or y + 1 > height or x < 0 or y < 0`, otherwise the grid's
node object at `(x, y)`. -/
def GridNodes.get_node (g : GridNodes) (x y : Int) : Option Ref :=
  if x + 1 > g.width ∨ y + 1 > g.height ∨ x < 0 ∨ y < 0 then none
  else some (Ref.gridR x y)

/-- The mutable state of an `A_Star` object (engine fields only; the
matplotlib figure is pure visualization). `closedSet` records, for each
inserted object, the hash tuple it had at insertion time, reflecting how a
Python `set` stores elements in hash buckets. -/
structure A_Star where
  grid_nodes : GridNodes
  heap : Ref → Node
  bloc_nodes : List (Int × Int)
  openList : List Ref
  closedSet : List (Ref × (Int × Int × Int × Int × Int × Option Ref))
  iter_ : Nat
  A_started : Bool

/-- Overwrite the field record of one object. -/
def A_Star.writeNode (s : A_Star) (r : Ref) (n : Node) : A_Star :=
  { s with heap := fun r2 => if r2 = r then n else s.heap r2 }

/-- Embeds `A_Star.__init__` composed with `GridNodes.__init__` and the two node
constructions of `__main__`: every grid slot holds `Node(x, y)`, the start
and end objects hold their given coordinates, all lists empty,
`iter_ = 0`, `A_started = False`.  (The heap also assigns a default record
to out-of-bounds `gridR` references; `get_node` never returns those, so
they are never dereferenced.) -/
def A_Star.init (g : GridNodes) (sx sy ex ey : Int) : A_Star :=
  { grid_nodes := g
    heap := fun r =>
      match r with
      | .startR => mkNode sx sy
      | .endR => mkNode ex ey
      | .gridR x y => mkNode x y
    bloc_nodes := []
    openList := []
    closedSet := []
    iter_ := 0
    A_started := false }

/-- The coordinate test `any(node.x == i and node.y == j for node in bloc_nodes)`
used by `get_valid_nodes` and `_unclick_square`. -/
def blockedCoord (l : List (Int × Int)) (x y : Int) : Bool :=
  l.any fun p => decide (p.1 = x ∧ p.2 = y)

/-- Embeds `A_Star._click_square` (lines 160-168): return unchanged when the
clicked coordinate is the end or the start coordinate, otherwise append a
fresh `Node(i, j)` to `bloc_nodes` (only its coordinates are ever read). -/
def A_Star.click_square (s : A_Star) (i j : Int) : A_Star :=
  if (s.heap Ref.endR).x = i ∧ (s.heap Ref.endR).y = j then s
  else if (s.heap Ref.startR).x = i ∧ (s.heap Ref.startR).y = j then s
  else { s with bloc_nodes := s.bloc_nodes ++ [(i, j)] }

/-- Embeds `list.remove` of the first coordinate-matching element, as done by
`_unclick_square`. -/
def removeFirstCoord : List (Int × Int) → Int → Int → List (Int × Int)
  | [], _, _ => []
  | p :: l, i, j => if p.1 = i ∧ p.2 = j then l else p :: removeFirstCoord l i j

/-- Embeds `A_Star._unclick_square` (lines 147-158). -/
def A_Star.unclick_square (s : A_Star) (i j : Int) : A_Star :=
  if (s.heap Ref.endR).x = i ∧ (s.heap Ref.endR).y = j then s
  else if (s.heap Ref.startR).x = i ∧ (s.heap Ref.startR).y = j then s
  else if blockedCoord s.bloc_nodes i j then
    { s with bloc_nodes := removeFirstCoord s.bloc_nodes i j }
  else s

/-- Membership in the Python set `closedSet`: the probe finds an element
only if it is the same object and its current hash tuple equals the hash
tuple recorded at insertion. -/
def closedMember (s : A_Star) (r : Ref) : Bool :=
  s.closedSet.any fun e => decide (e.1 = r ∧ e.2 = nodeHash (s.heap r))

/-- Embeds `closedSet.add(current_node)`: no-op when the object is already found,
otherwise record it together with its current hash tuple. -/
def closedAdd (s : A_Star) (r : Ref) : A_Star :=
  if closedMember s r then s
  else { s with closedSet := s.closedSet ++ [(r, nodeHash (s.heap r))] }

/-- The `(i, j)` offsets enumerated by the two nested loops of
`get_valid_nodes`, in source order, with `(0, 0)` skipped. -/
def neighborOffsets : List (Int × Int) :=
  [(-1, -1), (-1, 0), (-1, 1), (0, -1), (0, 1), (1, -1), (1, 0), (1, 1)]

/-- Embeds `self.grid_nodes.get_node(current_node.x + i, current_node.y + j)`. -/
def evalOffset (s : A_Star) (current : Ref) (off : Int × Int) : Option Ref :=
  s.grid_nodes.get_node ((s.heap current).x + off.1) ((s.heap current).y + off.2)

/-- The body of the nested loops of `get_valid_nodes`, applied to one grid
lookup result: skip when the lookup was `None`, when the object is found in
`closedSet`, or when some `bloc_nodes` entry matches its coordinates;
otherwise append the (`Optional`-typed) lookup result to the accumulator. -/
def validStep (s : A_Star) (acc : List (Option Ref)) : Option Ref → List (Option Ref)
  | none => acc
  | some r =>
    if closedMember s r then acc
    else if blockedCoord s.bloc_nodes (s.heap r).x (s.heap r).y then acc
    else acc ++ [some r]

/-- One pass of the nested loops: look up the offset, then run the body. -/
def validAcc (s : A_Star) (current : Ref) (acc : List (Option Ref)) (off : Int × Int) :
    List (Option Ref) :=
  validStep s acc (evalOffset s current off)

/-- Embeds `A_Star.get_valid_nodes` (lines 170-189): run the loop body over
the eight offsets in source order, starting from the empty list. -/
def get_valid_nodes (s : A_Star) (current : Ref) : List (Option Ref) :=
  neighborOffsets.foldl (validAcc s current) []

/-- Embeds `get_distance` (lines 259-262): Manhattan distance of the two nodes'
coordinates. -/
def get_distance (a b : Node) : Int := |a.x - b.x| + |a.y - b.y|

/-- Embeds `Node.__lt__` (lines 26-29), evaluated on the current field values of
the two objects. -/
def nodeLt (s : A_Star) (a b : Ref) : Bool :=
  if (s.heap a).F_cost = (s.heap b).F_cost then
    decide ((s.heap a).g_cost < (s.heap b).g_cost)
  else decide ((s.heap a).F_cost < (s.heap b).F_cost)

/-- The strict order `__lt__` decides: lexicographically smaller
`(F_cost, g_cost)` pair. -/
def nodeLtP (s : A_Star) (a b : Ref) : Prop :=
  (s.heap a).F_cost < (s.heap b).F_cost ∨
    ((s.heap a).F_cost = (s.heap b).F_cost ∧ (s.heap a).g_cost < (s.heap b).g_cost)

instance (s : A_Star) (a b : Ref) : Decidable (nodeLtP s a b) := by
  unfold nodeLtP; infer_instance

/-- The reflexive relation under which a stable sort driven by `__lt__`
orders the list: `a` may stay before `b` exactly when `b < a` fails. -/
def sortRel (s : A_Star) (a b : Ref) : Prop := nodeLt s b a = false

instance (s : A_Star) : DecidableRel (sortRel s) := fun a b =>
  inferInstanceAs (Decidable (nodeLt s b a = false))

/-- Embeds `self.openList.sort()`: Python's stable sort under `__lt__`.  Since
`__lt__` is a strict weak order, every stable sort produces the same list;
`List.insertionSort` with `sortRel` is such a stable sort (it inserts each
element before exactly the strictly greater ones, keeping equivalent
elements in their original order, as Timsort does). -/
def sortNodes (s : A_Star) (l : List Ref) : List Ref :=
  List.insertionSort (sortRel s) l

/-- Embeds line 244: `valid_node.g_cost = current_node.g_cost +
get_distance(current_node, valid_node)`. -/
def assignG (s : A_Star) (current r : Ref) : A_Star :=
  s.writeNode r
    { s.heap r with
        g_cost := (s.heap current).g_cost + get_distance (s.heap current) (s.heap r) }

/-- Embeds line 248: `valid_node.h_cost = get_distance(valid_node, end_node)`. -/
def assignH (s : A_Star) (r : Ref) : A_Star :=
  s.writeNode r { s.heap r with h_cost := get_distance (s.heap r) (s.heap Ref.endR) }

/-- Embeds lines 250-252: when the object is not in `openList` (identity
membership), set `parent_node = current` and append it to `openList`. -/
def pushIfNew (s : A_Star) (current r : Ref) : A_Star :=
  if r ∈ s.openList then s
  else
    { s.writeNode r { s.heap r with parent_node := some current } with
        openList := s.openList ++ [r] }

/-- One iteration of the `for valid_node in all_valid_nodes:` loop body for
a non-`None` element `r` (lines 243-252), in source order. -/
def processNeighbor (s : A_Star) (current r : Ref) : A_Star :=
  pushIfNew (assignH (assignG s current r) r) current r

/-- The whole `for valid_node in all_valid_nodes:` loop (lines 239-252),
processing the remaining list elements in order.  Returns `none` when the
`raise Exception(...)` branch fires, i.e. when a list element is `None`. -/
def stepNeighbors (s : A_Star) (current : Ref) : List (Option Ref) → Option A_Star
  | [] => some s
  | none :: _ => none
  | some r :: rest => stepNeighbors (processNeighbor s current r) current rest

/-- Outcome of `run_A_star`: `found current s` models `return self.end_node`
reached when the popped node's coordinates equal the end coordinates
(`current` records which object was popped), `noPath` models falling out of
the `while` loop, `invalidNode` the `raise Exception` branch, and
`outOfFuel` exposes the state after the given number of loop iterations. -/
inductive RunResult where
  | found : Ref → A_Star → RunResult
  | noPath : A_Star → RunResult
  | invalidNode : A_Star → RunResult
  | outOfFuel : A_Star → RunResult

/-- The engine state carried by a `RunResult`. -/
def RunResult.state : RunResult → A_Star
  | .found _ s => s
  | .noPath s => s
  | .invalidNode s => s
  | .outOfFuel s => s

/-- Whether the run returned through the `FOUND` branch. -/
def RunResult.isFound : RunResult → Bool
  | .found _ _ => true
  | _ => false

/-- The object popped at the `FOUND` return, when any. -/
def RunResult.foundRef : RunResult → Option Ref
  | .found r _ => some r
  | _ => none

/-- The `while len(self.openList) > 0:` loop of `run_A_star`
(lines 221-254), with explicit fuel.  One iteration: sort `openList`, pop
index 0 as `current`, return `end_node` if its coordinates equal the end
coordinates, else add `current` to `closedSet`, process
`get_valid_nodes(current)`, increment `iter_`.  (Sorting permutes the
list, so the sorted list is empty exactly when the `while` guard fails.) -/
def runLoop : Nat → A_Star → RunResult
  | 0, s => .outOfFuel s
  | fuel + 1, s =>
    match sortNodes s s.openList with
    | [] => .noPath s
    | current :: rest =>
      let s1 : A_Star := { s with openList := rest }
      if (s1.heap current).x = (s1.heap Ref.endR).x ∧
          (s1.heap current).y = (s1.heap Ref.endR).y then
        .found current s1
      else
        let s2 := closedAdd s1 current
        match stepNeighbors s2 current (get_valid_nodes s2 current) with
        | none => .invalidNode s2
        | some s3 => runLoop fuel { s3 with iter_ := s3.iter_ + 1 }

/-- The state right after `self.openList.append(start_node)` (line 219),
the push that moves the engine into its running loop. -/
def beginState (s : A_Star) : A_Star :=
  { s with openList := s.openList ++ [Ref.startR] }

/-- Embeds `A_Star.run_A_star` (lines 216-256). -/
def run_A_star (fuel : Nat) (s : A_Star) : RunResult :=
  runLoop fuel (beginState s)

/-- Embeds `A_Star._on_key_press` (lines 122-127): on the spacebar with
`A_started` still false, set `A_started = True` and run the algorithm;
otherwise do nothing.  Returns the final state and the run result when the
run was triggered. -/
def on_key_press (fuel : Nat) (s : A_Star) (key : String) : A_Star × Option RunResult :=
  if key = " " ∧ s.A_started = false then
    let s1 := { s with A_started := true }
    let r := run_A_star fuel s1
    (r.state, some r)
  else (s, none)

/-- Modelled from the spec: the source never reconstructs the path (it only
returns `self.end_node` and recolors squares), so path reconstruction is
missing from the code.  Spec §4.6 step 4: the path "is reconstructed by
following `parent` links from goal to start and reversing the order"; we
follow the parent chain from the node whose pop triggered `Found`. -/
def reconstructPath (s : A_Star) : Nat → Ref → List Ref
  | 0, r => [r]
  | fuel + 1, r =>
    match (s.heap r).parent_node with
    | none => [r]
    | some p => reconstructPath s fuel p ++ [r]

/-- Number of steps of a reconstructed path (one less than the number of
coordinates on it). -/
def pathSteps (l : List Ref) : Nat := l.length - 1

/-- The Chebyshev distance `max(|dx|, |dy|)` the spec compares path lengths
against. -/
def chebyshev (ax ay bx bY : Int) : Int := max |ax - bx| |ay - bY|

/-! ## Helper lemmas about the frontier ordering and sorting -/

lemma nodeLt_true_iff (s : A_Star) (a b : Ref) :
    nodeLt s a b = true ↔ nodeLtP s a b := by
  unfold nodeLt nodeLtP
  split_ifs with h <;> simp only [decide_eq_true_eq] <;> omega

lemma nodeLt_false_iff (s : A_Star) (a b : Ref) :
    nodeLt s a b = false ↔ ¬ nodeLtP s a b := by
  rw [← nodeLt_true_iff]
  cases nodeLt s a b <;> simp

lemma nodeLtP_asymm (s : A_Star) (a b : Ref) :
    nodeLtP s a b → ¬ nodeLtP s b a := by
  unfold nodeLtP; omega

lemma nodeLtP_notlt_trans (s : A_Star) (a b c : Ref) :
    ¬ nodeLtP s b a → ¬ nodeLtP s c b → ¬ nodeLtP s c a := by
  unfold nodeLtP; omega

instance (s : A_Star) : IsTotal Ref (sortRel s) := by
  constructor
  intro a b
  unfold sortRel
  rw [nodeLt_false_iff, nodeLt_false_iff]
  by_cases h : nodeLtP s b a
  · exact Or.inr (nodeLtP_asymm s b a h)
  · exact Or.inl h

instance (s : A_Star) : IsTrans Ref (sortRel s) := by
  constructor
  intro a b c hab hbc
  unfold sortRel at hab hbc ⊢
  rw [nodeLt_false_iff] at hab hbc ⊢
  exact nodeLtP_notlt_trans s a b c hab hbc

lemma mem_sortNodes (s : A_Star) (l : List Ref) (r : Ref) :
    r ∈ sortNodes s l ↔ r ∈ l := by
  unfold sortNodes; exact List.mem_insertionSort _

lemma sortNodes_head_min (s : A_Star) (l : List Ref) (c : Ref) (rest : List Ref)
    (h : sortNodes s l = c :: rest) (r : Ref) (hr : r ∈ l) : ¬ nodeLtP s r c := by
  rw [← mem_sortNodes s l r, h] at hr
  rcases List.mem_cons.mp hr with rfl | hr
  · exact fun hlt => nodeLtP_asymm s r r hlt hlt
  · have hs : List.Sorted (sortRel s) (c :: rest) := by
      rw [← h]
      exact List.sorted_insertionSort (sortRel s) l
    have hrel := List.rel_of_sorted_cons hs r hr
    rw [sortRel, nodeLt_false_iff] at hrel
    exact hrel

/-! ## Helper lemmas about neighbor enumeration -/

lemma get_node_some (g : GridNodes) (x y : Int) (r : Ref)
    (h : g.get_node x y = some r) : r = Ref.gridR x y := by
  unfold GridNodes.get_node at h
  by_cases h1 : x + 1 > g.width ∨ y + 1 > g.height ∨ x < 0 ∨ y < 0
  · rw [if_pos h1] at h; cases h
  · rw [if_neg h1] at h; exact (Option.some_injective _ h).symm

/-- Characterization of the loop body: a member of the output is a member
of the accumulator or an appended element that passed all three guards. -/
lemma mem_validAcc (s : A_Star) (current : Ref) (acc : List (Option Ref))
    (off : Int × Int) (v : Option Ref) (hv : v ∈ validAcc s current acc off) :
    v ∈ acc ∨ ∃ r : Ref, v = some r ∧ evalOffset s current off = some r ∧
      closedMember s r = false ∧
      blockedCoord s.bloc_nodes (s.heap r).x (s.heap r).y = false := by
  unfold validAcc at hv
  rcases hoff : evalOffset s current off with - | r <;>
    rw [hoff] at hv <;> simp only [validStep] at hv
  · exact Or.inl hv
  · by_cases hc : closedMember s r
    · rw [if_pos hc] at hv; exact Or.inl hv
    · rw [if_neg hc] at hv
      by_cases hb : blockedCoord s.bloc_nodes (s.heap r).x (s.heap r).y
      · rw [if_pos hb] at hv; exact Or.inl hv
      · rw [if_neg hb] at hv
        rcases List.mem_append.mp hv with hv | hv
        · exact Or.inl hv
        · rcases List.mem_singleton.mp hv with rfl
          exact Or.inr ⟨r, rfl, rfl, Bool.eq_false_iff.mpr hc, Bool.eq_false_iff.mpr hb⟩

/-- Every element of `get_valid_nodes` was appended by the loop body after
passing the guards. -/
lemma get_valid_nodes_mem (s : A_Star) (current : Ref) (v : Option Ref)
    (hv : v ∈ get_valid_nodes s current) :
    ∃ r : Ref, v = some r ∧
      (∃ off, off ∈ neighborOffsets ∧ evalOffset s current off = some r) ∧
      closedMember s r = false ∧
      blockedCoord s.bloc_nodes (s.heap r).x (s.heap r).y = false := by
  unfold get_valid_nodes at hv
  have main : ∀ (offs : List (Int × Int)) (acc : List (Option Ref)),
      v ∈ offs.foldl (validAcc s current) acc →
      v ∈ acc ∨ ∃ r : Ref, v = some r ∧
        (∃ off, off ∈ offs ∧ evalOffset s current off = some r) ∧
        closedMember s r = false ∧
        blockedCoord s.bloc_nodes (s.heap r).x (s.heap r).y = false := by
    intro offs
    induction offs with
    | nil => intro acc hacc; exact Or.inl hacc
    | cons off offs ih =>
      intro acc hacc
      rw [List.foldl_cons] at hacc
      rcases ih _ hacc with hmem | ⟨r, rfl, ⟨o, ho, heval⟩, hc, hb⟩
      · rcases mem_validAcc s current acc off _ hmem with hmem | ⟨r, rfl, heval, hc, hb⟩
        · exact Or.inl hmem
        · exact Or.inr ⟨r, rfl, ⟨off, List.mem_cons_self off offs, heval⟩, hc, hb⟩
      · exact Or.inr ⟨r, rfl, ⟨o, List.mem_cons_of_mem off ho, heval⟩, hc, hb⟩
  rcases main neighborOffsets [] hv with hmem | hgood
  · cases hmem
  · exact hgood

/-- Every element of `get_valid_nodes` is a grid-slot reference (never the
start or end object, never `None`) that is not found in the closed set. -/
lemma get_valid_nodes_elem (s : A_Star) (current : Ref) (v : Option Ref)
    (hv : v ∈ get_valid_nodes s current) :
    ∃ a b, v = some (Ref.gridR a b) ∧ closedMember s (Ref.gridR a b) = false := by
  rcases get_valid_nodes_mem s current v hv with ⟨r, rfl, ⟨off, -, heval⟩, hc, -⟩
  rcases get_node_some _ _ _ _ heval with rfl
  exact ⟨_, _, rfl, hc⟩

/-- Processing a list in which every element is `some` never reaches the
`raise` branch. -/
lemma stepNeighbors_isSome (l : List (Option Ref)) (h : l.all Option.isSome = true) :
    ∀ (s : A_Star) (current : Ref), (stepNeighbors s current l).isSome = true := by
  induction l with
  | nil => intro s c; rfl
  | cons v rest ih =>
    intro s c
    rcases v with - | r
    · simp at h
    · have hco := h
      rw [List.all_cons, Bool.and_eq_true] at hco
      show (stepNeighbors _ c rest).isSome = true
      exact ih hco.2 _ c

/-! ## Claim C7 -/

/-- C7: `get_node(x, y)` returns `None` exactly when `(x, y)` lies outside
`[0, width) × [0, height)`; otherwise it returns the grid's unique node
object for that coordinate, whose stored record in a fresh session is
`Node(x, y)`. -/
theorem C7_get_node_contract (g g0 : GridNodes) (sx sy ex ey x y : Int) :
    g.get_node x y =
      (if 0 ≤ x ∧ x < g.width ∧ 0 ≤ y ∧ y < g.height then some (Ref.gridR x y)
       else none) ∧
    (A_Star.init g0 sx sy ex ey).heap (Ref.gridR x y) = mkNode x y := by
  constructor
  · unfold GridNodes.get_node
    split_ifs <;> first | rfl | omega
  · rfl

/-! ## Claim C10 -/

/-- C10: the neighbor enumeration never yields a `None` element, so the
`raise Exception` branch guarding the expansion loop is unreachable: for
every state, running the loop body over the enumerated neighbors succeeds. -/
theorem C10_no_none_neighbor (s : A_Star) (current : Ref) :
    (get_valid_nodes s current).all Option.isSome = true ∧
    (stepNeighbors s current (get_valid_nodes s current)).isSome = true := by
  have hall : (get_valid_nodes s current).all Option.isSome = true := by
    rw [List.all_eq_true]
    intro v hv
    rcases get_valid_nodes_elem s current v hv with ⟨a, b, rfl, -⟩
    rfl
  exact ⟨hall, stepNeighbors_isSome _ hall s current⟩

/-! ## Claim C8 -/

/-- C8: clicking the start coordinate or the goal coordinate to add it to
the blocked registry is a no-op: the state (in particular `bloc_nodes`) is
unchanged, and if the blocked list contained neither the start nor the goal
coordinate before the call, it still contains neither afterwards. -/
theorem C8_click_start_goal_noop (s : A_Star)
    (hs : blockedCoord s.bloc_nodes (s.heap Ref.startR).x (s.heap Ref.startR).y = false)
    (he : blockedCoord s.bloc_nodes (s.heap Ref.endR).x (s.heap Ref.endR).y = false) :
    s.click_square (s.heap Ref.startR).x (s.heap Ref.startR).y = s ∧
    s.click_square (s.heap Ref.endR).x (s.heap Ref.endR).y = s ∧
    blockedCoord (s.click_square (s.heap Ref.startR).x (s.heap Ref.startR).y).bloc_nodes
      (s.heap Ref.startR).x (s.heap Ref.startR).y = false ∧
    blockedCoord (s.click_square (s.heap Ref.startR).x (s.heap Ref.startR).y).bloc_nodes
      (s.heap Ref.endR).x (s.heap Ref.endR).y = false ∧
    blockedCoord (s.click_square (s.heap Ref.endR).x (s.heap Ref.endR).y).bloc_nodes
      (s.heap Ref.startR).x (s.heap Ref.startR).y = false ∧
    blockedCoord (s.click_square (s.heap Ref.endR).x (s.heap Ref.endR).y).bloc_nodes
      (s.heap Ref.endR).x (s.heap Ref.endR).y = false := by
  have h1 : s.click_square (s.heap Ref.startR).x (s.heap Ref.startR).y = s := by
    unfold A_Star.click_square
    split_ifs with ha hb
    · rfl
    · rfl
    · exact absurd ⟨rfl, rfl⟩ hb
  have h2 : s.click_square (s.heap Ref.endR).x (s.heap Ref.endR).y = s := by
    unfold A_Star.click_square
    split_ifs with ha hb
    · rfl
    · rfl
    · exact absurd ⟨rfl, rfl⟩ ha
  refine ⟨h1, h2, ?_, ?_, ?_, ?_⟩
  · rw [h1]; exact hs
  · rw [h1]; exact he
  · rw [h2]; exact hs
  · rw [h2]; exact he

/-- Witness for C8 at a concrete fresh 3-by-3 session. -/
def c8session : A_Star := A_Star.init ⟨3, 3⟩ 0 0 2 2

theorem C8_witness :
    blockedCoord c8session.bloc_nodes (c8session.heap Ref.startR).x
      (c8session.heap Ref.startR).y = false ∧
    blockedCoord c8session.bloc_nodes (c8session.heap Ref.endR).x
      (c8session.heap Ref.endR).y = false ∧
    (c8session.click_square (c8session.heap Ref.startR).x
        (c8session.heap Ref.startR).y = c8session ∧
      c8session.click_square (c8session.heap Ref.endR).x
        (c8session.heap Ref.endR).y = c8session ∧
      blockedCoord (c8session.click_square (c8session.heap Ref.startR).x
          (c8session.heap Ref.startR).y).bloc_nodes
        (c8session.heap Ref.startR).x (c8session.heap Ref.startR).y = false ∧
      blockedCoord (c8session.click_square (c8session.heap Ref.startR).x
          (c8session.heap Ref.startR).y).bloc_nodes
        (c8session.heap Ref.endR).x (c8session.heap Ref.endR).y = false ∧
      blockedCoord (c8session.click_square (c8session.heap Ref.endR).x
          (c8session.heap Ref.endR).y).bloc_nodes
        (c8session.heap Ref.startR).x (c8session.heap Ref.startR).y = false ∧
      blockedCoord (c8session.click_square (c8session.heap Ref.endR).x
          (c8session.heap Ref.endR).y).bloc_nodes
        (c8session.heap Ref.endR).x (c8session.heap Ref.endR).y = false) :=
  ⟨by decide, by decide, C8_click_start_goal_noop c8session (by decide) (by decide)⟩

/-! ## Claim C5 -/

/-- C5: sort-then-pop extraction is minimal under the frontier ordering:
when sorting the open list puts `current` first, `current` is an element of
the open list, `__lt__` rejects every frontier element as smaller than
`current`, and no frontier element has a lexicographically smaller
`(F_cost, g_cost)` pair. -/
theorem C5_extraction_minimal (s : A_Star) (current : Ref) (rest : List Ref)
    (hsort : sortNodes s s.openList = current :: rest)
    (r : Ref) (hr : r ∈ s.openList) :
    current ∈ s.openList ∧ nodeLt s r current = false ∧
      ¬ ((s.heap r).F_cost < (s.heap current).F_cost ∨
        ((s.heap r).F_cost = (s.heap current).F_cost ∧
          (s.heap r).g_cost < (s.heap current).g_cost)) := by
  have hmem : current ∈ s.openList := by
    rw [← mem_sortNodes s s.openList current, hsort]
    exact List.mem_cons_self _ _
  have hmin := sortNodes_head_min s s.openList current rest hsort r hr
  exact ⟨hmem, (nodeLt_false_iff s r current).mpr hmin, hmin⟩

/-- Witness state for C5: the engine state after two loop iterations of the
3-by-3 session from `(0, 0)` to `(2, 2)`. -/
def c5state : A_Star := (run_A_star 2 (A_Star.init ⟨3, 3⟩ 0 0 2 2)).state

/-- Witness tail for C5. -/
def c5rest : List Ref := (sortNodes c5state c5state.openList).tail

theorem C5_witness :
    sortNodes c5state c5state.openList = Ref.gridR 1 1 :: c5rest ∧
    Ref.gridR 0 2 ∈ c5state.openList ∧
    (Ref.gridR 1 1 ∈ c5state.openList ∧
      nodeLt c5state (Ref.gridR 0 2) (Ref.gridR 1 1) = false ∧
      ¬ ((c5state.heap (Ref.gridR 0 2)).F_cost < (c5state.heap (Ref.gridR 1 1)).F_cost ∨
        ((c5state.heap (Ref.gridR 0 2)).F_cost = (c5state.heap (Ref.gridR 1 1)).F_cost ∧
          (c5state.heap (Ref.gridR 0 2)).g_cost < (c5state.heap (Ref.gridR 1 1)).g_cost))) :=
  ⟨by decide, by decide,
    C5_extraction_minimal c5state (Ref.gridR 1 1) c5rest (by decide) (Ref.gridR 0 2) (by decide)⟩

/-! ## Frame lemmas for the expansion loop body -/

lemma writeNode_heap (s : A_Star) (r : Ref) (n : Node) (u : Ref) :
    (s.writeNode r n).heap u = if u = r then n else s.heap u := rfl

lemma assignG_openList (s : A_Star) (current r : Ref) :
    (assignG s current r).openList = s.openList := rfl

lemma assignH_openList (s : A_Star) (r : Ref) :
    (assignH s r).openList = s.openList := rfl

lemma assignG_parent (s : A_Star) (current r u : Ref) :
    ((assignG s current r).heap u).parent_node = (s.heap u).parent_node := by
  unfold assignG
  rw [writeNode_heap]
  by_cases h : u = r
  · rw [if_pos h, h]
  · rw [if_neg h]

lemma assignH_parent (s : A_Star) (r u : Ref) :
    ((assignH s r).heap u).parent_node = (s.heap u).parent_node := by
  unfold assignH
  rw [writeNode_heap]
  by_cases h : u = r
  · rw [if_pos h, h]
  · rw [if_neg h]

lemma pushIfNew_openList (s : A_Star) (current r : Ref) :
    (pushIfNew s current r).openList =
      if r ∈ s.openList then s.openList else s.openList ++ [r] := by
  unfold pushIfNew
  split_ifs <;> rfl

lemma pushIfNew_parent_of_mem (s : A_Star) (current r u : Ref)
    (hu : u ∈ s.openList) :
    ((pushIfNew s current r).heap u).parent_node = (s.heap u).parent_node := by
  unfold pushIfNew
  split_ifs with h
  · rfl
  · have hur : u ≠ r := fun he => h (he ▸ hu)
    show ((s.writeNode r _).heap u).parent_node = _
    rw [writeNode_heap, if_neg hur]

lemma processNeighbor_openList (s : A_Star) (current r : Ref) :
    (processNeighbor s current r).openList =
      if r ∈ s.openList then s.openList else s.openList ++ [r] := by
  unfold processNeighbor
  rw [pushIfNew_openList, assignH_openList, assignG_openList]

lemma processNeighbor_heap_parent (s : A_Star) (current r u : Ref)
    (hu : u ∈ s.openList) :
    ((processNeighbor s current r).heap u).parent_node = (s.heap u).parent_node := by
  unfold processNeighbor
  have h2 : u ∈ (assignH (assignG s current r) r).openList := by
    rw [assignH_openList, assignG_openList]; exact hu
  rw [pushIfNew_parent_of_mem _ _ _ _ h2, assignH_parent, assignG_parent]

lemma processNeighbor_A_started (s : A_Star) (current r : Ref) :
    (processNeighbor s current r).A_started = s.A_started := by
  unfold processNeighbor pushIfNew
  split_ifs <;> rfl

lemma closedAdd_A_started (s : A_Star) (r : Ref) :
    (closedAdd s r).A_started = s.A_started := by
  unfold closedAdd; split_ifs <;> rfl

lemma stepNeighbors_A_started (l : List (Option Ref)) :
    ∀ (s : A_Star) (current : Ref) (s2 : A_Star),
      stepNeighbors s current l = some s2 → s2.A_started = s.A_started := by
  induction l with
  | nil => intro s c s2 h; cases h; rfl
  | cons v rest ih =>
    intro s c s2 h
    rcases v with - | r
    · cases h
    · rw [ih (processNeighbor s c r) c s2 h, processNeighbor_A_started]

/-- The open list after the expansion loop body contains only its previous
elements and elements of the processed list. -/
lemma stepNeighbors_openList_mem (l : List (Option Ref)) :
    ∀ (s : A_Star) (current : Ref) (s2 : A_Star),
      stepNeighbors s current l = some s2 →
      ∀ u ∈ s2.openList, u ∈ s.openList ∨ some u ∈ l := by
  induction l with
  | nil => intro s c s2 h u hu; cases h; exact Or.inl hu
  | cons v rest ih =>
    intro s c s2 h u hu
    rcases v with - | r
    · cases h
    · rcases ih _ c s2 h u hu with hin | hin
      · rw [processNeighbor_openList] at hin
        by_cases hr : r ∈ s.openList
        · rw [if_pos hr] at hin; exact Or.inl hin
        · rw [if_neg hr] at hin
          rcases List.mem_append.mp hin with hin | hin
          · exact Or.inl hin
          · rcases List.mem_singleton.mp hin with rfl
            exact Or.inr (List.mem_cons_self _ _)
      · exact Or.inr (List.mem_cons_of_mem _ hin)

/-- A reference that is no element of the processed list keeps its open
list multiplicity across the expansion loop body. -/
lemma stepNeighbors_count (l : List (Option Ref)) :
    ∀ (s : A_Star) (current : Ref) (s2 : A_Star) (r : Ref),
      stepNeighbors s current l = some s2 → some r ∉ l →
      s2.openList.count r = s.openList.count r := by
  induction l with
  | nil => intro s c s2 r h _; cases h; rfl
  | cons v rest ih =>
    intro s c s2 r h hnl
    rcases v with - | r2
    · cases h
    · have hne : some r ∉ rest := fun hm => hnl (List.mem_cons_of_mem _ hm)
      rw [ih _ c s2 r h hne, processNeighbor_openList]
      by_cases hr2 : r2 ∈ s.openList
      · rw [if_pos hr2]
      · rw [if_neg hr2, List.count_append]
        have hrr : r ∉ [r2] := by
          intro hm
          rcases List.mem_singleton.mp hm with rfl
          exact hnl (List.mem_cons_self _ _)
        rw [List.count_eq_zero.mpr hrr, Nat.add_zero]

/-- A frontier-resident reference keeps its parent link, its open list
multiplicity, and its frontier membership across the expansion loop body. -/
lemma stepNeighbors_frame (l : List (Option Ref)) :
    ∀ (s : A_Star) (current : Ref) (s2 : A_Star) (v : Ref), v ∈ s.openList →
      stepNeighbors s current l = some s2 →
      (s2.heap v).parent_node = (s.heap v).parent_node ∧
      s2.openList.count v = s.openList.count v ∧ v ∈ s2.openList := by
  induction l with
  | nil => intro s c s2 v hv h; cases h; exact ⟨rfl, rfl, hv⟩
  | cons w rest ih =>
    intro s c s2 v hv h
    rcases w with - | r
    · cases h
    · have hv3 : v ∈ (processNeighbor s c r).openList := by
        rw [processNeighbor_openList]
        split_ifs with hr
        · exact hv
        · exact List.mem_append_left _ hv
      have hcount3 : (processNeighbor s c r).openList.count v = s.openList.count v := by
        rw [processNeighbor_openList]
        split_ifs with hr
        · rfl
        · have hrv : v ∉ [r] := by
            intro hm
            rcases List.mem_singleton.mp hm with rfl
            exact hr hv
          rw [List.count_append, List.count_eq_zero.mpr hrv, Nat.add_zero]
      have hp := processNeighbor_heap_parent s c r v hv
      rcases ih _ c s2 v hv3 h with ⟨hp2, hc2, hv2⟩
      exact ⟨hp2.trans hp, hc2.trans hcount3, hv2⟩

/-! ## Claim C2 -/

/-- C2 (amended): on entering the running loop the engine pushes the start
object with its untouched initial fields — `g_cost = 0`, `h_cost = 0`
(rather than `heuristic(start, goal)`: the source never assigns the start
node's costs before pushing it), and `parent = None`. -/
theorem C2_start_push_fields (g : GridNodes) (sx sy ex ey : Int) :
    (beginState (A_Star.init g sx sy ex ey)).openList = [Ref.startR] ∧
    ((beginState (A_Star.init g sx sy ex ey)).heap Ref.startR).g_cost = 0 ∧
    ((beginState (A_Star.init g sx sy ex ey)).heap Ref.startR).h_cost = 0 ∧
    ((beginState (A_Star.init g sx sy ex ey)).heap Ref.startR).parent_node = none :=
  ⟨rfl, rfl, rfl, rfl⟩

/-- The session constructed by the source's `__main__`: a 15-by-15 grid
with start `(2, 2)` and goal `(12, 12)`. -/
def mainSession : A_Star := A_Star.init ⟨15, 15⟩ 2 2 12 12

/-- C2 counterexample: in the source's own configuration the pushed start
node carries `h_cost = 0`, while `heuristic(start, goal)` is `20`. -/
theorem C2_counterexample :
    ((beginState mainSession).heap Ref.startR).h_cost = 0 ∧
    get_distance ((beginState mainSession).heap Ref.startR)
      ((beginState mainSession).heap Ref.endR) = 20 ∧
    ¬ ((beginState mainSession).heap Ref.startR).h_cost =
      get_distance ((beginState mainSession).heap Ref.startR)
        ((beginState mainSession).heap Ref.endR) := by
  decide

/-! ## Claim C3 -/

/-- C3 (amended): during an expansion step, a neighbor already present in
the frontier keeps its `parent_node` unchanged and is not re-inserted (its
open list multiplicity is unchanged); its `g_cost` and `h_cost`, however,
are overwritten like every other valid neighbor's (see the
counterexample). -/
theorem C3_frontier_frame (s : A_Star) (current v : Ref) (l : List (Option Ref))
    (s2 : A_Star) (hv : v ∈ s.openList)
    (hrun : stepNeighbors s current l = some s2) :
    (s2.heap v).parent_node = (s.heap v).parent_node ∧
    s2.openList.count v = s.openList.count v := by
  rcases stepNeighbors_frame l s current s2 v hv hrun with ⟨hp, hc, -⟩
  exact ⟨hp, hc⟩

/-- The engine state after one loop iteration of the 3-by-3 session. -/
def c3a : A_Star := (run_A_star 1 (A_Star.init ⟨3, 3⟩ 0 0 2 2)).state

/-- The engine state after two loop iterations of the 3-by-3 session. -/
def c3b : A_Star := (run_A_star 2 (A_Star.init ⟨3, 3⟩ 0 0 2 2)).state

/-- C3 counterexample: grid node `(1, 0)` is in the frontier both after
iteration one and after iteration two, yet iteration two (expanding
`(0, 1)`) overwrites its `g_cost` from `1` to `3`: the stored cost of a
frontier-resident neighbor is not left unchanged. -/
theorem C3_counterexample :
    Ref.gridR 1 0 ∈ c3a.openList ∧ Ref.gridR 1 0 ∈ c3b.openList ∧
    (c3a.heap (Ref.gridR 1 0)).g_cost = 1 ∧
    (c3b.heap (Ref.gridR 1 0)).g_cost = 3 ∧
    ¬ (c3b.heap (Ref.gridR 1 0)).g_cost = (c3a.heap (Ref.gridR 1 0)).g_cost := by
  decide

/-- The state produced by processing the single neighbor `(1, 0)` from
`c3a` with current node `(0, 1)`, for the C3 witness. -/
def c3w : A_Star :=
  (stepNeighbors c3a (Ref.gridR 0 1) [some (Ref.gridR 1 0)]).getD c3a

theorem C3_witness :
    Ref.gridR 1 0 ∈ c3a.openList ∧
    stepNeighbors c3a (Ref.gridR 0 1) [some (Ref.gridR 1 0)] = some c3w ∧
    ((c3w.heap (Ref.gridR 1 0)).parent_node = (c3a.heap (Ref.gridR 1 0)).parent_node ∧
      c3w.openList.count (Ref.gridR 1 0) = c3a.openList.count (Ref.gridR 1 0)) :=
  ⟨by decide, rfl,
    C3_frontier_frame c3a (Ref.gridR 0 1) (Ref.gridR 1 0) [some (Ref.gridR 1 0)] c3w
      (by decide) rfl⟩

/-! ## Claim C4 -/

/-- C4 (amended): an object found in the closed set — same object with
unchanged hash tuple, which is how every node that was closed as the grid's
own object is found — never reappears among the valid neighbors, and an
expansion step never re-inserts it into the frontier.  The original
coordinate-level claim fails for the start coordinate, which is closed as
the module-level duplicate object: see the counterexample. -/
theorem C4_closed_not_reexamined (s : A_Star) (current r : Ref) (s2 : A_Star)
    (hc : closedMember s r = true)
    (hrun : stepNeighbors s current (get_valid_nodes s current) = some s2) :
    some r ∉ get_valid_nodes s current ∧
    s2.openList.count r = s.openList.count r := by
  have hnot : some r ∉ get_valid_nodes s current := by
    intro hmem
    rcases get_valid_nodes_mem s current _ hmem with ⟨r2, heq, -, hc2, -⟩
    rcases Option.some_injective _ heq with rfl
    rw [hc] at hc2
    cases hc2
  exact ⟨hnot, stepNeighbors_count _ s current s2 r hrun hnot⟩

/-- Decidable observation: does the closed set hold an entry whose object
currently has the given coordinates? -/
def closedHasCoords (s : A_Star) (x y : Int) : Bool :=
  s.closedSet.any fun e => decide ((s.heap e.1).x = x ∧ (s.heap e.1).y = y)

/-- The expansion context of loop iteration two of the 3-by-3 session:
`(0, 1)` has been popped and added to the closed set. -/
def c4mid : A_Star :=
  closedAdd { c3a with openList := (sortNodes c3a c3a.openList).tail } (Ref.gridR 0 1)

/-- C4 counterexample: at iteration two of the 3-by-3 session the closed
set holds an object at the start coordinate `(0, 0)` (the start object was
closed in iteration one), yet the grid node at `(0, 0)` — a different
object with the same coordinate — is returned as a valid neighbor of
`(0, 1)` and is in the frontier after iteration two: a coordinate in the
closed set is re-examined and re-inserted. -/
theorem C4_counterexample :
    sortNodes c3a c3a.openList = Ref.gridR 0 1 :: (sortNodes c3a c3a.openList).tail ∧
    closedHasCoords c4mid 0 0 = true ∧
    some (Ref.gridR 0 0) ∈ get_valid_nodes c4mid (Ref.gridR 0 1) ∧
    (c4mid.heap (Ref.gridR 0 0)).x = 0 ∧ (c4mid.heap (Ref.gridR 0 0)).y = 0 ∧
    Ref.gridR 0 0 ∈ c3b.openList ∧
    closedHasCoords c3b 0 0 = true := by
  decide

/-- The state produced by one full neighbor pass from `c4mid`, for the C4
witness. -/
def c4w : A_Star :=
  (stepNeighbors c4mid (Ref.gridR 0 1) (get_valid_nodes c4mid (Ref.gridR 0 1))).getD c4mid

theorem C4_witness :
    closedMember c4mid (Ref.gridR 0 1) = true ∧
    stepNeighbors c4mid (Ref.gridR 0 1) (get_valid_nodes c4mid (Ref.gridR 0 1)) = some c4w ∧
    (some (Ref.gridR 0 1) ∉ get_valid_nodes c4mid (Ref.gridR 0 1) ∧
      c4w.openList.count (Ref.gridR 0 1) = c4mid.openList.count (Ref.gridR 0 1)) :=
  ⟨by decide, rfl,
    C4_closed_not_reexamined c4mid (Ref.gridR 0 1) (Ref.gridR 0 1) c4w (by decide) rfl⟩

/-! ## Claim C9 -/

/-- Decidable observation: does the open list hold an object whose current
coordinates are the given pair?  This is the coordinate-level membership
test the spec describes. -/
def openHasCoords (s : A_Star) (x y : Int) : Bool :=
  s.openList.any fun u => decide ((s.heap u).x = x ∧ (s.heap u).y = y)

/-- C9: during neighbor expansion the frontier membership test used by the
source (object identity) coincides with the coordinate-level test: a valid
neighbor is in the open list exactly when some open list entry carries its
coordinates.  The hypotheses — the open list holds only grid-slot objects
and each grid slot at `(a, b)` still has coordinates `(a, b)` — hold in
every reachable expansion state: only grid slots are ever pushed and no
assignment ever writes the coordinate fields. -/
theorem C9_membership_by_coords (s : A_Star) (current v : Ref)
    (hv : some v ∈ get_valid_nodes s current)
    (hgrid : ∀ u ∈ s.openList, ∃ a b, u = Ref.gridR a b)
    (hcoh : ∀ a b : Int, (s.heap (Ref.gridR a b)).x = a ∧ (s.heap (Ref.gridR a b)).y = b) :
    v ∈ s.openList ↔ openHasCoords s (s.heap v).x (s.heap v).y = true := by
  rcases get_valid_nodes_elem s current _ hv with ⟨a, b, heq, -⟩
  have hveq : v = Ref.gridR a b := Option.some_injective _ heq
  subst hveq
  unfold openHasCoords
  rw [List.any_eq_true]
  constructor
  · intro hmem
    exact ⟨_, hmem, by simp⟩
  · rintro ⟨u, hu, hdec⟩
    rw [decide_eq_true_eq] at hdec
    rcases hgrid u hu with ⟨a2, b2, rfl⟩
    have h1 := hcoh a2 b2
    have h2 := hcoh a b
    have ha : a2 = a := (h1.1.symm.trans hdec.1).trans h2.1
    have hb : b2 = b := (h1.2.symm.trans hdec.2).trans h2.2
    subst ha
    subst hb
    exact hu

/-- Witness state for C9: a fresh 3-by-3 session whose frontier holds the
grid nodes `(1, 0)` and `(1, 1)`. -/
def c9s : A_Star :=
  { A_Star.init ⟨3, 3⟩ 0 0 2 2 with openList := [Ref.gridR 1 0, Ref.gridR 1 1] }

theorem C9_witness :
    some (Ref.gridR 1 1) ∈ get_valid_nodes c9s Ref.startR ∧
    (Ref.gridR 1 1 ∈ c9s.openList ↔
      openHasCoords c9s (c9s.heap (Ref.gridR 1 1)).x (c9s.heap (Ref.gridR 1 1)).y = true) :=
  ⟨by decide,
    C9_membership_by_coords c9s Ref.startR (Ref.gridR 1 1) (by decide)
      (by
        intro u hu
        rcases List.mem_cons.mp hu with rfl | hu2
        · exact ⟨1, 0, rfl⟩
        · rcases List.mem_cons.mp hu2 with rfl | hu3
          · exact ⟨1, 1, rfl⟩
          · exact absurd hu3 (List.not_mem_nil u))
      (fun a b => ⟨rfl, rfl⟩)⟩

/-! ## Reachability support for C9

The two hypotheses of the C9 theorem are now shown to hold in every state
reached by running a fresh session: after the first loop iteration the
frontier holds only grid-slot references, and the coordinate fields of
every grid slot are never written. -/

lemma closedAdd_openList (s : A_Star) (r : Ref) :
    (closedAdd s r).openList = s.openList := by
  unfold closedAdd; split_ifs <;> rfl

lemma closedAdd_heap (s : A_Star) (r : Ref) :
    (closedAdd s r).heap = s.heap := by
  unfold closedAdd; split_ifs <;> rfl

lemma assignG_coords (s : A_Star) (current r u : Ref) :
    ((assignG s current r).heap u).x = (s.heap u).x ∧
    ((assignG s current r).heap u).y = (s.heap u).y := by
  unfold assignG
  rw [writeNode_heap]
  by_cases h : u = r
  · rw [if_pos h, h]; exact ⟨rfl, rfl⟩
  · rw [if_neg h]; exact ⟨rfl, rfl⟩

lemma assignH_coords (s : A_Star) (r u : Ref) :
    ((assignH s r).heap u).x = (s.heap u).x ∧
    ((assignH s r).heap u).y = (s.heap u).y := by
  unfold assignH
  rw [writeNode_heap]
  by_cases h : u = r
  · rw [if_pos h, h]; exact ⟨rfl, rfl⟩
  · rw [if_neg h]; exact ⟨rfl, rfl⟩

lemma pushIfNew_coords (s : A_Star) (current r u : Ref) :
    ((pushIfNew s current r).heap u).x = (s.heap u).x ∧
    ((pushIfNew s current r).heap u).y = (s.heap u).y := by
  unfold pushIfNew
  split_ifs with h
  · exact ⟨rfl, rfl⟩
  · show (((s.writeNode r _).heap u).x = _) ∧ (((s.writeNode r _).heap u).y = _)
    rw [writeNode_heap]
    by_cases hur : u = r
    · rw [if_pos hur, hur]; exact ⟨rfl, rfl⟩
    · rw [if_neg hur]; exact ⟨rfl, rfl⟩

lemma processNeighbor_coords (s : A_Star) (current r u : Ref) :
    ((processNeighbor s current r).heap u).x = (s.heap u).x ∧
    ((processNeighbor s current r).heap u).y = (s.heap u).y := by
  unfold processNeighbor
  rcases pushIfNew_coords (assignH (assignG s current r) r) current r u with ⟨hx, hy⟩
  rcases assignH_coords (assignG s current r) r u with ⟨hx2, hy2⟩
  rcases assignG_coords s current r u with ⟨hx3, hy3⟩
  exact ⟨(hx.trans hx2).trans hx3, (hy.trans hy2).trans hy3⟩

lemma stepNeighbors_coords (l : List (Option Ref)) :
    ∀ (s : A_Star) (current : Ref) (s2 : A_Star) (u : Ref),
      stepNeighbors s current l = some s2 →
      (s2.heap u).x = (s.heap u).x ∧ (s2.heap u).y = (s.heap u).y := by
  induction l with
  | nil => intro s c s2 u h; cases h; exact ⟨rfl, rfl⟩
  | cons v rest ih =>
    intro s c s2 u h
    rcases v with - | r
    · cases h
    · rcases ih _ c s2 u h with ⟨hx, hy⟩
      rcases processNeighbor_coords s c r u with ⟨hx2, hy2⟩
      exact ⟨hx.trans hx2, hy.trans hy2⟩

lemma runLoop_coords (fuel : Nat) :
    ∀ (s : A_Star) (u : Ref),
      ((runLoop fuel s).state.heap u).x = (s.heap u).x ∧
      ((runLoop fuel s).state.heap u).y = (s.heap u).y := by
  induction fuel with
  | zero => intro s u; exact ⟨rfl, rfl⟩
  | succ fuel ih =>
    intro s u
    unfold runLoop
    split
    · exact ⟨rfl, rfl⟩
    next current rest heq =>
      dsimp only
      split_ifs with hif
      · exact ⟨rfl, rfl⟩
      · split
        next heq2 =>
          show (((closedAdd _ _).heap u).x = _) ∧ (((closedAdd _ _).heap u).y = _)
          rw [closedAdd_heap]
          exact ⟨rfl, rfl⟩
        next s3 heq3 =>
          rcases ih { s3 with iter_ := s3.iter_ + 1 } u with ⟨hx, hy⟩
          rcases stepNeighbors_coords _ _ _ _ u heq3 with ⟨hx2, hy2⟩
          rw [closedAdd_heap] at hx2 hy2
          exact ⟨hx.trans hx2, hy.trans hy2⟩

/-- In every state reached from a fresh session, the grid slot at `(a, b)`
still has coordinates `(a, b)`: no assignment ever writes coordinates. -/
lemma run_grid_coords (fuel : Nat) (g : GridNodes) (sx sy ex ey a b : Int) :
    ((run_A_star fuel (A_Star.init g sx sy ex ey)).state.heap (Ref.gridR a b)).x = a ∧
    ((run_A_star fuel (A_Star.init g sx sy ex ey)).state.heap (Ref.gridR a b)).y = b :=
  runLoop_coords fuel (beginState (A_Star.init g sx sy ex ey)) (Ref.gridR a b)

lemma runLoop_openList_from (fuel : Nat) :
    ∀ (s : A_Star) (u : Ref), u ∈ (runLoop fuel s).state.openList →
      u ∈ s.openList ∨ ∃ a b, u = Ref.gridR a b := by
  induction fuel with
  | zero => intro s u hu; exact Or.inl hu
  | succ fuel ih =>
    intro s u hu
    rw [runLoop] at hu
    rcases hsort : sortNodes s s.openList with - | ⟨current, rest⟩ <;> rw [hsort] at hu
    · exact Or.inl hu
    · have hrest : ∀ w : Ref, w ∈ rest → w ∈ s.openList := by
        intro w hw
        rw [← mem_sortNodes s s.openList w, hsort]
        exact List.mem_cons_of_mem _ hw
      dsimp only at hu
      split_ifs at hu with hif
      · exact Or.inl (hrest u hu)
      · rcases hstep : stepNeighbors (closedAdd { s with openList := rest } current)
            current (get_valid_nodes (closedAdd { s with openList := rest } current)
              current) with - | s3 <;> simp only [hstep, RunResult.state] at hu
        · rw [closedAdd_openList] at hu
          exact Or.inl (hrest u hu)
        · rcases ih { s3 with iter_ := s3.iter_ + 1 } u hu with hin | hg
          · rcases stepNeighbors_openList_mem _ _ _ _ hstep u hin with hin2 | hval
            · rw [closedAdd_openList] at hin2
              exact Or.inl (hrest u hin2)
            · rcases get_valid_nodes_elem _ _ _ hval with ⟨a, b, heq, -⟩
              rcases Option.some_injective _ heq with rfl
              exact Or.inr ⟨a, b, rfl⟩
          · exact Or.inr hg

/-- After the first loop iteration of a fresh session, the frontier holds
only grid-slot references: the start object has been popped and only grid
slots are ever pushed. -/
lemma run_openList_grid_refs (fuel : Nat) (g : GridNodes) (sx sy ex ey : Int)
    (u : Ref)
    (hu : u ∈ (run_A_star (fuel + 1) (A_Star.init g sx sy ex ey)).state.openList) :
    ∃ a b, u = Ref.gridR a b := by
  revert hu
  unfold run_A_star runLoop
  have hsort : sortNodes (beginState (A_Star.init g sx sy ex ey))
      (beginState (A_Star.init g sx sy ex ey)).openList = [Ref.startR] := rfl
  rw [hsort]
  dsimp only
  split_ifs with hif
  · intro hu; exact absurd hu (List.not_mem_nil u)
  · intro hu
    rcases hstep : stepNeighbors
        (closedAdd { beginState (A_Star.init g sx sy ex ey) with openList := [] }
          Ref.startR)
        Ref.startR
        (get_valid_nodes
          (closedAdd { beginState (A_Star.init g sx sy ex ey) with openList := [] }
            Ref.startR)
          Ref.startR) with - | s3 <;> simp only [hstep, RunResult.state] at hu
    · rw [closedAdd_openList] at hu
      exact absurd hu (List.not_mem_nil u)
    · rcases runLoop_openList_from fuel { s3 with iter_ := s3.iter_ + 1 } u hu with hin | hg
      · rcases stepNeighbors_openList_mem _ _ _ _ hstep u hin with hin2 | hval
        · rw [closedAdd_openList] at hin2
          exact absurd hin2 (List.not_mem_nil u)
        · rcases get_valid_nodes_elem _ _ _ hval with ⟨a, b, heq, -⟩
          rcases Option.some_injective _ heq with rfl
          exact ⟨a, b, rfl⟩
      · exact hg

/-! ## Claim C1 -/

lemma runLoop_A_started (fuel : Nat) :
    ∀ s : A_Star, (runLoop fuel s).state.A_started = s.A_started := by
  induction fuel with
  | zero => intro s; rfl
  | succ fuel ih =>
    intro s
    unfold runLoop
    split
    · rfl
    next current rest heq =>
      dsimp only
      split_ifs with hif
      · rfl
      · split
        next heq2 =>
          show (closedAdd _ _).A_started = s.A_started
          rw [closedAdd_A_started]
        next s3 heq3 =>
          rw [ih]
          show s3.A_started = s.A_started
          rw [stepNeighbors_A_started _ _ _ _ heq3, closedAdd_A_started]

/-- When the frontier holds exactly the start object and its coordinates
equal the end coordinates, the first loop iteration returns through the
`FOUND` branch. -/
lemma runLoop_found_first (fuel : Nat) (t : A_Star)
    (ho : t.openList = [Ref.startR])
    (hx : (t.heap Ref.startR).x = (t.heap Ref.endR).x)
    (hy : (t.heap Ref.startR).y = (t.heap Ref.endR).y) :
    runLoop (fuel + 1) t = RunResult.found Ref.startR { t with openList := [] } := by
  have hsort : sortNodes t t.openList = [Ref.startR] := by rw [ho]; rfl
  unfold runLoop
  split
  next heq =>
    rw [hsort] at heq
    exact absurd heq (List.cons_ne_nil _ _)
  next current rest heq =>
    rw [hsort] at heq
    injection heq with hc hr
    subst hc
    subst hr
    rw [if_pos ⟨hx, hy⟩]

/-- C1 (amended): the spacebar handler performs no configuration
validation: whenever the engine is idle it unconditionally sets
`A_started = True` and runs the search — in particular, with `start` equal
to `goal` (a configuration the spec says must raise a `ConfigurationError`
without a state change) the engine still transitions and the run
immediately returns through the `FOUND` branch; no error of any kind is
raised. -/
theorem C1_no_validation (s : A_Star) (fuel : Nat)
    (h1 : s.A_started = false) (h2 : s.openList = [])
    (h3 : (s.heap Ref.startR).x = (s.heap Ref.endR).x)
    (h4 : (s.heap Ref.startR).y = (s.heap Ref.endR).y) :
    (on_key_press (fuel + 1) s " ").1.A_started = true ∧
    (on_key_press (fuel + 1) s " ").2 =
      some (RunResult.found Ref.startR { s with A_started := true, openList := [] }) := by
  have ho : (beginState { s with A_started := true }).openList = [Ref.startR] := by
    show s.openList ++ [Ref.startR] = [Ref.startR]
    rw [h2]
    rfl
  have hfound : run_A_star (fuel + 1) { s with A_started := true } =
      RunResult.found Ref.startR { s with A_started := true, openList := [] } := by
    unfold run_A_star
    rw [runLoop_found_first fuel (beginState { s with A_started := true }) ho h3 h4]
    rfl
  unfold on_key_press
  rw [if_pos (⟨rfl, h1⟩ : (" " : String) = " " ∧ s.A_started = false)]
  constructor
  · show (run_A_star (fuel + 1) { s with A_started := true }).state.A_started = true
    rw [hfound]
    rfl
  · show some (run_A_star (fuel + 1) { s with A_started := true }) =
      some (RunResult.found Ref.startR { s with A_started := true, openList := [] })
    rw [hfound]

/-- A session whose start coordinate equals its goal coordinate,
violating the preconditions the spec prescribes for `begin()`. -/
def c1s : A_Star := A_Star.init ⟨3, 3⟩ 1 1 1 1

/-- C1 counterexample: with `start == goal` the spacebar handler raises no
error and does transition out of Idle — `A_started` flips to `True` and
the run returns through the `FOUND` branch. -/
theorem C1_counterexample :
    c1s.A_started = false ∧
    (on_key_press 1 c1s " ").1.A_started = true ∧
    Option.map RunResult.isFound (on_key_press 1 c1s " ").2 = some true := by
  decide

theorem C1_witness :
    c1s.A_started = false ∧ c1s.openList = [] ∧
    (c1s.heap Ref.startR).x = (c1s.heap Ref.endR).x ∧
    (c1s.heap Ref.startR).y = (c1s.heap Ref.endR).y ∧
    ((on_key_press 1 c1s " ").1.A_started = true ∧
      (on_key_press 1 c1s " ").2 =
        some (RunResult.found Ref.startR { c1s with A_started := true, openList := [] })) :=
  ⟨by decide, rfl, by decide, by decide,
    C1_no_validation c1s 0 (by decide) rfl (by decide) (by decide)⟩

end AStarSpec
